import Mathlib

set_option maxHeartbeats 1000000

/-!
Shallow embedding of the light2d renderer (the Rust source `src/main.rs`):
2-D scene of shapes (circle, half-plane, convex polygon, CSG union and
intersection), entities with materials, nearest-hit scene resolution,
optics functions (reflect, refract, schlick, beer_lambert) and the
recursive radiance tracer.  Rust `f64` arithmetic is embedded as real
arithmetic; Rust `Option` as `Option`; the fatal constructor check of
`Polygon::new` as an `Option`-returning constructor.
-/

/-- The numeric threshold `EPSILON = 1e-6` of the source. -/
noncomputable def EPSILON : ℝ := 1e-6

/-- The recursion bound `MAX_DEPTH = 3` of the source. -/
def MAX_DEPTH : ℕ := 3

/-- RGB radiance triple (struct `Color` of the source). -/
@[ext]
structure Color where
  r : ℝ
  g : ℝ
  b : ℝ

/-- `Color::black()`. -/
def Color.black : Color := ⟨0, 0, 0⟩

/-- Channel-wise addition (`impl Add<Color> for Color`). -/
instance : Add Color := ⟨fun c₁ c₂ => ⟨c₁.r + c₂.r, c₁.g + c₂.g, c₁.b + c₂.b⟩⟩

/-- Channel-wise multiplication (`impl Mul<Color> for Color`). -/
instance : Mul Color := ⟨fun c₁ c₂ => ⟨c₁.r * c₂.r, c₁.g * c₂.g, c₁.b * c₂.b⟩⟩

/-- Scaling by a scalar (`impl Mul<f64> for Color`). -/
instance : HMul Color ℝ Color := ⟨fun c s => ⟨c.r * s, c.g * s, c.b * s⟩⟩

/-- A geometric hit: hit point and (outward) unit normal (struct `Intersection`). -/
structure Intersection where
  point : ℝ × ℝ
  normal : ℝ × ℝ

/-- Euclidean distance between two points (fn `distance`). -/
noncomputable def distance (p1 p2 : ℝ × ℝ) : ℝ :=
  Real.sqrt ((p1.1 - p2.1) * (p1.1 - p2.1) + (p1.2 - p2.2) * (p1.2 - p2.2))

/-- The closed shape variants of the source: `Circle`, `Plane`, `Polygon`
(vertex list, counterclockwise) and the CSG combinators `UnionShape` and
`IntersectShape` (boxed trait objects in the source become a sum type). -/
inductive Shape where
  | circle (cx cy r : ℝ)
  | plane (px py nx ny : ℝ)
  | polygon (points : List (ℝ × ℝ))
  | union (a b : Shape)
  | inter (a b : Shape)

/-- The oriented edge list of a polygon: `(points[i], points[i+1 mod n])`
for each `i`, exactly the index arithmetic of the source's loops. -/
def polyEdges (pts : List (ℝ × ℝ)) : List ((ℝ × ℝ) × (ℝ × ℝ)) :=
  pts.zip (pts.drop 1 ++ pts.take 1)

/-- `Shape::is_inside` for every variant, by the source's formulas. -/
noncomputable def Shape.is_inside : Shape → ℝ × ℝ → Bool
  | .circle cx cy r, p =>
    decide ((p.1 - cx) * (p.1 - cx) + (p.2 - cy) * (p.2 - cy) < r * r)
  | .plane px py nx ny, p =>
    decide ((p.1 - px) * nx + (p.2 - py) * ny < 0)
  | .polygon pts, p =>
    (polyEdges pts).all fun ab =>
      decide ((ab.2.1 - ab.1.1) * (p.2 - ab.1.2) - (p.1 - ab.1.1) * (ab.2.2 - ab.1.2) < 0)
  | .union a b, p => a.is_inside p || b.is_inside p
  | .inter a b, p => a.is_inside p && b.is_inside p

/-- The body of one iteration of `Polygon::intersect`'s edge loop: test the
crossing-candidate condition, solve for the edge-line parameter, keep the
closer of the candidate and the accumulated result. -/
noncomputable def polyEdgeStep (p d : ℝ × ℝ) (res : Option Intersection)
    (ab : (ℝ × ℝ) × (ℝ × ℝ)) : Option Intersection :=
  let a := ab.1
  let b := ab.2
  let ax := a.1 - p.1
  let ay := a.2 - p.2
  let bx := b.1 - p.1
  let by' := b.2 - p.2
  let product1 := ax * d.2 - d.1 * ay
  let product2 := bx * d.2 - d.1 * by'
  if product1 * product2 < 0 then
    let nx := a.2 - b.2
    let ny := b.1 - a.1
    let len := Real.sqrt (nx * nx + ny * ny)
    let nx := nx / len
    let ny := ny / len
    let c1 := d.1 * nx + d.2 * ny
    if EPSILON < |c1| then
      let c2 := (a.1 - p.1) * nx + (a.2 - p.2) * ny
      let t := c2 / c1
      if EPSILON < t then
        let i : Intersection := ⟨(p.1 + d.1 * t, p.2 + d.2 * t), (nx, ny)⟩
        match res with
        | some j => if distance p i.point < distance p j.point then some i else some j
        | none => some i
      else res
    else res
  else res

/-- `Shape::intersect` for every variant: ray origin `p`, direction `d`,
closest hit with parameter `t > EPSILON` or `none`. -/
noncomputable def Shape.intersect : Shape → ℝ × ℝ → ℝ × ℝ → Option Intersection
  | .circle cx cy r, p, d =>
    let a := d.1 * d.1 + d.2 * d.2
    let ocx := p.1 - cx
    let ocy := p.2 - cy
    let b := 2 * (ocx * d.1 + ocy * d.2)
    let c := ocx * ocx + ocy * ocy - r * r
    let delta := b * b - 4 * a * c
    if delta < 0 then none
    else
      let t1 := (-b - Real.sqrt delta) / (2 * a)
      let t2 := (-b + Real.sqrt delta) / (2 * a)
      let t := if EPSILON < t1 then t1 else t2
      if EPSILON < t then
        let x := p.1 + d.1 * t
        let y := p.2 + d.2 * t
        let nx := x - cx
        let ny := y - cy
        let len := Real.sqrt (nx * nx + ny * ny)
        some ⟨(x, y), (nx / len, ny / len)⟩
      else none
  | .plane px py nx ny, p, d =>
    let a := d.1 * nx + d.2 * ny
    if |a| < EPSILON then none
    else
      let b := (px - p.1) * nx + (py - p.2) * ny
      let t := b / a
      if EPSILON < t then
        some ⟨(p.1 + d.1 * t, p.2 + d.2 * t), (nx, ny)⟩
      else none
  | .polygon pts, p, d =>
    (polyEdges pts).foldl (polyEdgeStep p d) none
  | .union a b, p, d =>
    match a.intersect p d, b.intersect p d with
    | some i1, some i2 =>
      if distance p i1.point < distance p i2.point then some i1 else some i2
    | none, r2 => r2
    | r1, none => r1
  | .inter a b, p, d =>
    match a.intersect p d, b.intersect p d with
    | some i1, some i2 =>
      if a.is_inside i2.point && b.is_inside i1.point then
        if distance p i1.point < distance p i2.point then some i1 else some i2
      else if a.is_inside i2.point then some i2
      else if b.is_inside i1.point then some i1
      else none
    | none, some i2 => if a.is_inside i2.point then some i2 else none
    | some i1, none => if b.is_inside i1.point then some i1 else none
    | none, none => none

/-- `Polygon::new`, which panics ("Too few points!") unless the vertex list
has more than one element; the fatal construction failure is embedded as
`none`. -/
def Polygon.new (p : List (ℝ × ℝ)) : Option Shape :=
  if 1 < p.length then some (Shape.polygon p) else none

/-- Material data bundled with a shape (struct `Entity`). -/
structure Entity where
  shape : Shape
  emissive : Color
  reflectivity : ℝ
  eta : ℝ
  absorption : Color

/-- A geometric hit merged with the owning entity's material fields
(struct `EntityIntersection`). -/
structure EntityIntersection where
  point : ℝ × ℝ
  normal : ℝ × ℝ
  emissive : Color
  reflectivity : ℝ
  eta : ℝ
  absorption : Color

/-- `Entity::intersect`: intersect the shape and attach the material. -/
noncomputable def Entity.intersect (e : Entity) (p d : ℝ × ℝ) :
    Option EntityIntersection :=
  (e.shape.intersect p d).map fun i =>
    ⟨i.point, i.normal, e.emissive, e.reflectivity, e.eta, e.absorption⟩

/-- The entity list of a scene (struct `Scene`). -/
structure Scene where
  entities : List Entity

/-- One step of `Scene::intersect`'s loop: keep the accumulated result unless
the new entity's hit is strictly closer. -/
noncomputable def sceneFoldStep (p d : ℝ × ℝ) (res : Option EntityIntersection)
    (e : Entity) : Option EntityIntersection :=
  match e.intersect p d with
  | some i =>
    match res with
    | some r => if distance p i.point < distance p r.point then some i else some r
    | none => some i
  | none => res

/-- `Scene::intersect`: fold the per-entity nearest-hit update over the
entity list. -/
noncomputable def Scene.intersect (s : Scene) (p d : ℝ × ℝ) :
    Option EntityIntersection :=
  s.entities.foldl (sceneFoldStep p d) none

/-- `fn reflect`: mirror the incident direction about the normal. -/
def reflect (ix iy nx ny : ℝ) : ℝ × ℝ :=
  let dot2 := (ix * nx + iy * ny) * 2
  (ix - dot2 * nx, iy - dot2 * ny)

/-- `fn refract`: Snell refraction of `(ix, iy)` at normal `(nx, ny)` with
relative index `eta`; `none` signals total internal reflection. -/
noncomputable def refract (ix iy nx ny eta : ℝ) : Option (ℝ × ℝ) :=
  let dot := ix * nx + iy * ny
  let k := 1 - eta * eta * (1 - dot * dot)
  if k < 0 then none
  else
    let a := eta * dot + Real.sqrt k
    some (eta * ix - a * nx, eta * iy - a * ny)

/-- `fn fresnel`: exact Fresnel reflectance (present in the source, unused
by `trace`). -/
noncomputable def fresnel (cosi cost etai etat : ℝ) : ℝ :=
  let rs := (etat * cosi - etai * cost) / (etat * cosi + etai * cost)
  let rp := (etat * cost - etai * cosi) / (etat * cost + etai * cosi)
  (rs * rs + rp * rp) * 0.5

/-- `fn schlick`: Schlick's approximation of the Fresnel reflectance. -/
noncomputable def schlick (cosi cost etai etat : ℝ) : ℝ :=
  let r0 := (etai - etat) / (etai + etat)
  let r0 := r0 * r0
  let a := if etai < etat then 1 - cosi else 1 - cost
  let aa := a * a
  r0 + (1 - r0) * aa * aa * a

/-- `fn beer_lambert`: per-channel transmittance `exp(-a·d)`. -/
noncomputable def beer_lambert (a : Color) (d : ℝ) : Color :=
  ⟨Real.exp (-a.r * d), Real.exp (-a.g * d), Real.exp (-a.b * d)⟩

/-- The tracer's orientation sign: `1` when the ray travels against the
stored normal, `-1` otherwise (the first computation in `trace`'s hit
branch). -/
noncomputable def traceSign (dx dy : ℝ) (r : EntityIntersection) : ℝ :=
  if r.normal.1 * dx + r.normal.2 * dy < 0 then 1 else -1

/-- `fn trace`: recursive radiance tracer.  Finds the nearest scene hit,
orients the normal by `traceSign`, accumulates emissive plus (below
`MAX_DEPTH`) the refracted branch weighted by `1 - schlick` and the
reflected branch weighted by the working reflectivity (forced to `1` on
total internal reflection), and finally applies Beer-Lambert attenuation
when the hit was reached from inside (`sign < 0`).  The source's mutable
`refl`/`sum` pair after the refraction block is embedded as the pair
`rs`. -/
noncomputable def trace (scene : Scene) (ox oy dx dy : ℝ) (depth : ℕ) : Color :=
  match Scene.intersect scene (ox, oy) (dx, dy) with
  | some r =>
    let sign := traceSign dx dy r
    let sum :=
      if h : depth < MAX_DEPTH ∧ (0 < r.reflectivity ∨ 0 < r.eta) then
        let x := r.point.1
        let y := r.point.2
        let nx := r.normal.1 * sign
        let ny := r.normal.2 * sign
        let rs :=
          if 0 < r.eta then
            let eta := if sign < 0 then r.eta else 1 / r.eta
            match refract dx dy nx ny eta with
            | some (rx, ry) =>
              let cosi := -(dx * nx + dy * ny)
              let cost := -(rx * nx + ry * ny)
              let refl :=
                if sign < 0 then schlick cosi cost r.eta 1
                else schlick cosi cost 1 r.eta
              (refl, r.emissive + trace scene x y rx ry (depth + 1) * (1 - refl))
            | none => ((1 : ℝ), r.emissive)
          else (r.reflectivity, r.emissive)
        if 0 < rs.1 then
          rs.2 + trace scene x y (reflect dx dy nx ny).1 (reflect dx dy nx ny).2
              (depth + 1) * rs.1
        else rs.2
      else r.emissive
    if sign < 0 then sum * beer_lambert r.absorption (distance (ox, oy) r.point)
    else sum
  | none => Color.black
termination_by MAX_DEPTH - depth
decreasing_by
  · exact Nat.sub_lt_sub_left h.1 (Nat.lt_succ_self depth)
  · exact Nat.sub_lt_sub_left h.1 (Nat.lt_succ_self depth)

/-- The pre-attenuation accumulator of `trace`'s hit branch: the value of
the source's variable `sum` just before the final `sign < 0` Beer-Lambert
step, for a resolved hit `r`.  Recursive rays call `trace` itself. -/
noncomputable def tracePre (scene : Scene) (dx dy : ℝ) (depth : ℕ)
    (r : EntityIntersection) : Color :=
  let sign := traceSign dx dy r
  if depth < MAX_DEPTH ∧ (0 < r.reflectivity ∨ 0 < r.eta) then
    let x := r.point.1
    let y := r.point.2
    let nx := r.normal.1 * sign
    let ny := r.normal.2 * sign
    let rs :=
      if 0 < r.eta then
        let eta := if sign < 0 then r.eta else 1 / r.eta
        match refract dx dy nx ny eta with
        | some (rx, ry) =>
          let cosi := -(dx * nx + dy * ny)
          let cost := -(rx * nx + ry * ny)
          let refl :=
            if sign < 0 then schlick cosi cost r.eta 1
            else schlick cosi cost 1 r.eta
          (refl, r.emissive + trace scene x y rx ry (depth + 1) * (1 - refl))
        | none => ((1 : ℝ), r.emissive)
      else (r.reflectivity, r.emissive)
    if 0 < rs.1 then
      rs.2 + trace scene x y (reflect dx dy nx ny).1 (reflect dx dy nx ny).2
          (depth + 1) * rs.1
    else rs.2
  else r.emissive

/-- The oriented working normal `(nx, ny)` of `trace`'s hit branch. -/
noncomputable def orientN (dx dy : ℝ) (r : EntityIntersection) : ℝ × ℝ :=
  (r.normal.1 * traceSign dx dy r, r.normal.2 * traceSign dx dy r)

/-- The relative refraction index chosen in `trace`'s hit branch. -/
noncomputable def traceEta (dx dy : ℝ) (r : EntityIntersection) : ℝ :=
  if traceSign dx dy r < 0 then r.eta else 1 / r.eta

/-- The Schlick reflectance computed in `trace`'s refraction branch for a
successful refraction direction `(rx, ry)`. -/
noncomputable def traceRefl (dx dy rx ry : ℝ) (r : EntityIntersection) : ℝ :=
  let cosi := -(dx * (orientN dx dy r).1 + dy * (orientN dx dy r).2)
  let cost := -(rx * (orientN dx dy r).1 + ry * (orientN dx dy r).2)
  if traceSign dx dy r < 0 then schlick cosi cost r.eta 1
  else schlick cosi cost 1 r.eta

/-- Entity used in the reorder counterexample: the half-plane `x = 1`
with outward normal `(-1, 0)` and red emissive. -/
noncomputable def pairEntityA : Entity :=
  ⟨.plane 1 0 (-1) 0, ⟨1, 0, 0⟩, 0, 0, Color.black⟩

/-- Entity with the same shape as `pairEntityA` but green emissive. -/
noncomputable def pairEntityB : Entity :=
  ⟨.plane 1 0 (-1) 0, ⟨0, 1, 0⟩, 0, 0, Color.black⟩

/-- Entity for the reorder witness: the half-plane `x = 2`. -/
noncomputable def pairEntityC : Entity :=
  ⟨.plane 2 0 (-1) 0, ⟨0, 0, 1⟩, 0, 0, Color.black⟩

/-- The transmitted-direction formula as literally written in the spec:
`eta·d − (eta·cosθᵢ + √k)·n` with `cosθᵢ = −(d·n)` (the source instead
uses `eta·(d·n) + √k` as the coefficient). -/
noncomputable def refractSpec (ix iy nx ny eta : ℝ) : Option (ℝ × ℝ) :=
  let cosi := -(ix * nx + iy * ny)
  let k := 1 - eta * eta * (1 - cosi * cosi)
  if k < 0 then none
  else
    some (eta * ix - (eta * cosi + Real.sqrt k) * nx,
          eta * iy - (eta * cosi + Real.sqrt k) * ny)

/-- Rust's saturating `f64`-to-`u32` cast for the pixel conversion: negative
values clamp to 0, values at or above `2^32` clamp to `u32::MAX`, others
truncate toward zero. -/
noncomputable def f64_as_u32 (x : ℝ) : ℕ :=
  if x ≤ 0 then 0 else min (Nat.floor x) 4294967295

/-- One 8-bit output channel as computed in `main`'s pixel loop:
`min((c * 255.0) as u32, 255) as u8`. -/
noncomputable def pixel_channel (c : ℝ) : ℕ :=
  min (f64_as_u32 (c * 255)) 255

/-- One 8-bit output channel as described by the spec: round `c·255` to the
nearest integer, then clamp into `[0, 255]`. -/
noncomputable def pixel_channel_spec (c : ℝ) : ℕ :=
  min (round (c * 255)).toNat 255

/-- A refractive half-plane entity (`eta = 1`, so refraction succeeds at
normal incidence). -/
noncomputable def refrEntity : Entity :=
  ⟨.plane 0 0 0 1, ⟨1, 2, 3⟩, 1 / 5, 1, Color.black⟩

/-- The one-entity scene around `refrEntity`. -/
noncomputable def S4scene : Scene := ⟨[refrEntity]⟩

/-- The hit record of the vertical ray `(0,1) → (0,-1)` on `S4scene`. -/
noncomputable def r4 : EntityIntersection :=
  ⟨(0, 0), (0, 1), ⟨1, 2, 3⟩, 1 / 5, 1, Color.black⟩

/-- A purely reflective half-plane (`y = 0`, outward normal `(0,1)`,
reflectivity `1/2`, no emission, no refraction, no absorption). -/
noncomputable def reflEntity : Entity :=
  ⟨.plane 0 0 0 1, Color.black, 1 / 2, 0, Color.black⟩

/-- An emissive circle of radius `√2` centered at `(4,1)`, tangent to the
line `y = x - 1` traced by the unbiased reflected ray. -/
noncomputable def tangentCircle : Entity :=
  ⟨.circle 4 1 (Real.sqrt 2), ⟨5, 5, 5⟩, 0, 0, Color.black⟩

/-- The counterexample scene for the bias claim. -/
noncomputable def S1scene : Scene := ⟨[reflEntity, tangentCircle]⟩

/-- The hit record of the ray `(0,1) → (1,-1)` on the reflective plane. -/
noncomputable def pr1 : EntityIntersection :=
  ⟨(1, 0), (0, 1), Color.black, 1 / 2, 0, Color.black⟩

/-- The hit record of the unbiased reflected ray `(1,0) → (1,1)` on the
tangent circle. -/
noncomputable def cr2 : EntityIntersection :=
  ⟨(3, 2), (-1 / Real.sqrt 2, 1 / Real.sqrt 2), ⟨5, 5, 5⟩, 0, 0, Color.black⟩

theorem Color.add_def (c₁ c₂ : Color) :
    c₁ + c₂ = ⟨c₁.r + c₂.r, c₁.g + c₂.g, c₁.b + c₂.b⟩ := rfl

theorem Color.mul_def (c₁ c₂ : Color) :
    c₁ * c₂ = ⟨c₁.r * c₂.r, c₁.g * c₂.g, c₁.b * c₂.b⟩ := rfl

theorem Color.smul_def (c : Color) (s : ℝ) :
    c * s = Color.mk (c.r * s) (c.g * s) (c.b * s) := rfl

theorem trace_no_hit (scene : Scene) (ox oy dx dy : ℝ) (depth : ℕ)
    (h : Scene.intersect scene (ox, oy) (dx, dy) = none) :
    trace scene ox oy dx dy depth = Color.black := by
  rw [trace.eq_def, h]

theorem trace_hit (scene : Scene) (ox oy dx dy : ℝ) (depth : ℕ)
    (r : EntityIntersection)
    (h : Scene.intersect scene (ox, oy) (dx, dy) = some r) :
    trace scene ox oy dx dy depth =
      if traceSign dx dy r < 0 then
        tracePre scene dx dy depth r * beer_lambert r.absorption (distance (ox, oy) r.point)
      else tracePre scene dx dy depth r := by
  rw [trace.eq_def, h, tracePre]
  rfl

theorem Color.smul_zero (c : Color) : c * (0 : ℝ) = Color.black := by
  ext <;> simp [Color.smul_def, Color.black]

theorem Color.add_black (c : Color) : c + Color.black = c := by
  ext <;> simp [Color.add_def, Color.black]

theorem tracePre_cutoff (scene : Scene) (dx dy : ℝ) (depth : ℕ)
    (r : EntityIntersection)
    (h : ¬ (depth < MAX_DEPTH ∧ (0 < r.reflectivity ∨ 0 < r.eta))) :
    tracePre scene dx dy depth r = r.emissive := by
  rw [tracePre, if_neg h]

theorem tracePre_refl (scene : Scene) (dx dy : ℝ) (depth : ℕ)
    (r : EntityIntersection)
    (hd : depth < MAX_DEPTH) (he : ¬ 0 < r.eta) (hr : 0 < r.reflectivity) :
    tracePre scene dx dy depth r =
      r.emissive + trace scene r.point.1 r.point.2
        (reflect dx dy (orientN dx dy r).1 (orientN dx dy r).2).1
        (reflect dx dy (orientN dx dy r).1 (orientN dx dy r).2).2
        (depth + 1) * r.reflectivity := by
  rw [tracePre, if_pos ⟨hd, Or.inl hr⟩]
  simp only [if_neg he, if_pos hr, orientN]

theorem tracePre_tir (scene : Scene) (dx dy : ℝ) (depth : ℕ)
    (r : EntityIntersection)
    (hd : depth < MAX_DEPTH) (he : 0 < r.eta)
    (hrefr : refract dx dy (orientN dx dy r).1 (orientN dx dy r).2
        (traceEta dx dy r) = none) :
    tracePre scene dx dy depth r =
      r.emissive + trace scene r.point.1 r.point.2
        (reflect dx dy (orientN dx dy r).1 (orientN dx dy r).2).1
        (reflect dx dy (orientN dx dy r).1 (orientN dx dy r).2).2
        (depth + 1) * (1 : ℝ) := by
  rw [tracePre, if_pos ⟨hd, Or.inr he⟩]
  have hrefr' : refract dx dy (r.normal.1 * traceSign dx dy r)
      (r.normal.2 * traceSign dx dy r)
      (if traceSign dx dy r < 0 then r.eta else 1 / r.eta) = none := by
    simpa [orientN, traceEta] using hrefr
  simp only [if_pos he, hrefr', if_pos one_pos, orientN]

theorem tracePre_refr (scene : Scene) (dx dy rx ry : ℝ) (depth : ℕ)
    (r : EntityIntersection)
    (hd : depth < MAX_DEPTH) (he : 0 < r.eta)
    (hrefr : refract dx dy (orientN dx dy r).1 (orientN dx dy r).2
        (traceEta dx dy r) = some (rx, ry)) :
    tracePre scene dx dy depth r =
      (if 0 < traceRefl dx dy rx ry r then
        r.emissive
          + trace scene r.point.1 r.point.2 rx ry (depth + 1)
              * (1 - traceRefl dx dy rx ry r)
          + trace scene r.point.1 r.point.2
              (reflect dx dy (orientN dx dy r).1 (orientN dx dy r).2).1
              (reflect dx dy (orientN dx dy r).1 (orientN dx dy r).2).2
              (depth + 1) * traceRefl dx dy rx ry r
      else
        r.emissive
          + trace scene r.point.1 r.point.2 rx ry (depth + 1)
              * (1 - traceRefl dx dy rx ry r)) := by
  rw [tracePre, if_pos ⟨hd, Or.inr he⟩]
  have hrefr' : refract dx dy (r.normal.1 * traceSign dx dy r)
      (r.normal.2 * traceSign dx dy r)
      (if traceSign dx dy r < 0 then r.eta else 1 / r.eta) = some (rx, ry) := by
    simpa [orientN, traceEta] using hrefr
  simp only [if_pos he, hrefr', traceRefl, orientN]

theorem refract_none_iff (ix iy nx ny eta : ℝ) :
    refract ix iy nx ny eta = none ↔
      1 - eta * eta * (1 - (ix * nx + iy * ny) * (ix * nx + iy * ny)) < 0 := by
  rw [refract]
  split <;> simp_all

theorem refract_some (ix iy nx ny eta : ℝ)
    (h : ¬ 1 - eta * eta * (1 - (ix * nx + iy * ny) * (ix * nx + iy * ny)) < 0) :
    refract ix iy nx ny eta =
      some (eta * ix -
              (eta * (ix * nx + iy * ny) +
                Real.sqrt (1 - eta * eta *
                  (1 - (ix * nx + iy * ny) * (ix * nx + iy * ny)))) * nx,
            eta * iy -
              (eta * (ix * nx + iy * ny) +
                Real.sqrt (1 - eta * eta *
                  (1 - (ix * nx + iy * ny) * (ix * nx + iy * ny)))) * ny) := by
  rw [refract, if_neg h]

theorem sceneFoldStep_eq_none (p d : ℝ × ℝ) (acc : Option EntityIntersection)
    (e : Entity) (h : sceneFoldStep p d acc e = none) :
    acc = none ∧ Entity.intersect e p d = none := by
  rcases he : Entity.intersect e p d with _ | i <;>
    rcases hacc : acc with _ | a <;>
      simp [sceneFoldStep, he, hacc] at h <;> simp_all [sceneFoldStep]
  split_ifs at h <;> simp_all

theorem sceneFoldStep_provenance (p d : ℝ × ℝ) (acc : Option EntityIntersection)
    (e : Entity) (x : EntityIntersection) (h : sceneFoldStep p d acc e = some x) :
    acc = some x ∨ Entity.intersect e p d = some x := by
  rcases he : Entity.intersect e p d with _ | i <;>
    rcases hacc : acc with _ | a <;>
      simp_all [sceneFoldStep, he, hacc]
  split_ifs at h <;> simp_all

theorem sceneFoldStep_le_acc (p d : ℝ × ℝ) (acc : Option EntityIntersection)
    (e : Entity) (a x : EntityIntersection) (hacc : acc = some a)
    (h : sceneFoldStep p d acc e = some x) :
    distance p x.point ≤ distance p a.point := by
  subst hacc
  rcases he : Entity.intersect e p d with _ | i
  · simp only [sceneFoldStep, he] at h
    cases h
    exact le_refl _
  · simp only [sceneFoldStep, he] at h
    split_ifs at h with hlt
    · cases h
      exact le_of_lt hlt
    · cases h
      exact le_refl _

theorem sceneFoldStep_le_hit (p d : ℝ × ℝ) (acc : Option EntityIntersection)
    (e : Entity) (i x : EntityIntersection) (he : Entity.intersect e p d = some i)
    (h : sceneFoldStep p d acc e = some x) :
    distance p x.point ≤ distance p i.point := by
  rcases hacc : acc with _ | a
  · simp only [sceneFoldStep, he, hacc] at h
    cases h
    exact le_refl _
  · simp only [sceneFoldStep, he, hacc] at h
    split_ifs at h with hlt
    · cases h
      exact le_refl _
    · cases h
      exact le_of_not_lt hlt

theorem sceneFoldStep_isSome (p d : ℝ × ℝ) (acc : Option EntityIntersection)
    (e : Entity) (h : acc ≠ none ∨ Entity.intersect e p d ≠ none) :
    sceneFoldStep p d acc e ≠ none := by
  intro hc
  rcases sceneFoldStep_eq_none p d acc e hc with ⟨h1, h2⟩
  rcases h with h | h <;> exact h (by assumption)

theorem sceneFold_none (p d : ℝ × ℝ) (l : List Entity)
    (acc : Option EntityIntersection)
    (h : l.foldl (sceneFoldStep p d) acc = none) :
    acc = none ∧ ∀ e ∈ l, Entity.intersect e p d = none := by
  induction l generalizing acc with
  | nil => simpa using h
  | cons e l ih =>
    rw [List.foldl_cons] at h
    rcases ih (sceneFoldStep p d acc e) h with ⟨hstep, hl⟩
    rcases sceneFoldStep_eq_none p d acc e hstep with ⟨hacc, he⟩
    refine ⟨hacc, ?_⟩
    intro e' he'
    rcases List.mem_cons.mp he' with rfl | hmem
    · exact he
    · exact hl e' hmem

theorem sceneFold_min (p d : ℝ × ℝ) (l : List Entity)
    (acc : Option EntityIntersection) (res : EntityIntersection)
    (h : l.foldl (sceneFoldStep p d) acc = some res) :
    (acc = some res ∨ ∃ e ∈ l, Entity.intersect e p d = some res) ∧
      (∀ a, acc = some a → distance p res.point ≤ distance p a.point) ∧
      (∀ e ∈ l, ∀ i, Entity.intersect e p d = some i →
        distance p res.point ≤ distance p i.point) := by
  induction l generalizing acc with
  | nil =>
    simp only [List.foldl_nil] at h
    refine ⟨Or.inl h, ?_, ?_⟩
    · intro a ha
      rw [h] at ha
      cases ha
      exact le_refl _
    · intro e he
      simp at he
  | cons e l ih =>
    rw [List.foldl_cons] at h
    rcases ih (sceneFoldStep p d acc e) h with ⟨hprov, hacc, hl⟩
    refine ⟨?_, ?_, ?_⟩
    · rcases hprov with hstep | ⟨e', he', hi⟩
      · rcases sceneFoldStep_provenance p d acc e res hstep with h' | h'
        · exact Or.inl h'
        · exact Or.inr ⟨e, List.mem_cons_self e l, h'⟩
      · exact Or.inr ⟨e', List.mem_cons_of_mem e he', hi⟩
    · intro a ha
      rcases hstep : sceneFoldStep p d acc e with _ | x
      · rcases sceneFoldStep_eq_none p d acc e hstep with ⟨hn, _⟩
        rw [hn] at ha
        cases ha
      · exact le_trans (hacc x hstep) (sceneFoldStep_le_acc p d acc e a x ha hstep)
    · intro e' he' i hi
      rcases List.mem_cons.mp he' with hme | hmem
      · rw [hme] at hi
        rcases hstep : sceneFoldStep p d acc e with _ | x
        · exact absurd hstep (sceneFoldStep_isSome p d acc e (Or.inr (by simp [hi])))
        · exact le_trans (hacc x hstep) (sceneFoldStep_le_hit p d acc e i x hi hstep)
      · exact hl e' hmem i hi

theorem scene_pair_comm (A B : Entity) (p d : ℝ × ℝ)
    (hne : ¬ ∃ i1 i2, Entity.intersect A p d = some i1 ∧
        Entity.intersect B p d = some i2 ∧
        distance p i1.point = distance p i2.point) :
    Scene.intersect ⟨[A, B]⟩ p d = Scene.intersect ⟨[B, A]⟩ p d := by
  unfold Scene.intersect
  simp only [List.foldl_cons, List.foldl_nil]
  rcases hA : Entity.intersect A p d with _ | a <;>
    rcases hB : Entity.intersect B p d with _ | b <;>
      simp only [sceneFoldStep, hA, hB]
  have hne' : distance p a.point ≠ distance p b.point :=
    fun hc => hne ⟨a, b, hA, hB, hc⟩
  rcases lt_trichotomy (distance p a.point) (distance p b.point) with hlt | heq | hgt
  · rw [if_neg (not_lt.mpr (le_of_lt hlt)), if_pos hlt]
  · exact absurd heq hne'
  · rw [if_pos hgt, if_neg (not_lt.mpr (le_of_lt hgt))]

theorem pairEntityA_hit : Entity.intersect pairEntityA (0, 0) (1, 0) =
    some ⟨(1, 0), (-1, 0), ⟨1, 0, 0⟩, 0, 0, Color.black⟩ := by
  rw [pairEntityA, Entity.intersect]
  norm_num [Shape.intersect, EPSILON]

theorem pairEntityB_hit : Entity.intersect pairEntityB (0, 0) (1, 0) =
    some ⟨(1, 0), (-1, 0), ⟨0, 1, 0⟩, 0, 0, Color.black⟩ := by
  rw [pairEntityB, Entity.intersect]
  norm_num [Shape.intersect, EPSILON]

theorem pairEntityC_hit : Entity.intersect pairEntityC (0, 0) (1, 0) =
    some ⟨(2, 0), (-1, 0), ⟨0, 0, 1⟩, 0, 0, Color.black⟩ := by
  rw [pairEntityC, Entity.intersect]
  norm_num [Shape.intersect, EPSILON]

theorem distance_0_0_1_0 : distance (0, 0) (1, 0) = 1 := by
  norm_num [distance]

theorem distance_0_0_2_0 : distance (0, 0) (2, 0) = 2 := by
  rw [distance]
  norm_num
  rw [show (4 : ℝ) = 2 ^ 2 by norm_num, Real.sqrt_sq (by norm_num : (0 : ℝ) ≤ 2)]

/-- Claim C2 (amended): for every scene, `Scene.intersect` returns a hit of
one of its entities whose distance from the ray origin is minimal among all
entity hits, and returns `none` only when no entity hits; reordering a
two-entity scene `[A, B]` to `[B, A]` yields the same result record
whenever `A` and `B` do not both hit at exactly the same distance (on such
a tie the entity listed first wins, so the unrestricted reorder invariance
of the original claim fails). -/
theorem C2_nearest_hit_reorder (l : List Entity) (A B : Entity) (p d : ℝ × ℝ)
    (hne : ¬ ∃ i1 i2, Entity.intersect A p d = some i1 ∧
        Entity.intersect B p d = some i2 ∧
        distance p i1.point = distance p i2.point) :
    (∀ res, Scene.intersect ⟨l⟩ p d = some res →
        (∃ e ∈ l, Entity.intersect e p d = some res) ∧
        ∀ e ∈ l, ∀ i, Entity.intersect e p d = some i →
          distance p res.point ≤ distance p i.point) ∧
    (Scene.intersect ⟨l⟩ p d = none → ∀ e ∈ l, Entity.intersect e p d = none) ∧
    Scene.intersect ⟨[A, B]⟩ p d = Scene.intersect ⟨[B, A]⟩ p d := by
  refine ⟨?_, ?_, scene_pair_comm A B p d hne⟩
  · intro res h
    rcases sceneFold_min p d l none res h with ⟨hprov, _, hmin⟩
    rcases hprov with h' | h'
    · cases h'
    · exact ⟨h', hmin⟩
  · intro h
    exact (sceneFold_none p d l none h).2

/-- Witness for C2 at a concrete input: two distinct half-planes hit at
distances 1 and 2, so the no-tie hypothesis holds and the reordered scenes
agree. -/
theorem C2_witness :
    Scene.intersect ⟨[pairEntityA, pairEntityC]⟩ (0, 0) (1, 0) =
      Scene.intersect ⟨[pairEntityC, pairEntityA]⟩ (0, 0) (1, 0) :=
  (C2_nearest_hit_reorder [pairEntityA, pairEntityC] pairEntityA pairEntityC
    (0, 0) (1, 0) (by
      rintro ⟨i1, i2, h1, h2, h3⟩
      rw [pairEntityA_hit] at h1
      rw [pairEntityC_hit] at h2
      cases h1
      cases h2
      rw [distance_0_0_1_0, distance_0_0_2_0] at h3
      norm_num at h3)).2.2

/-- Counterexample to C2 as stated: two entities with the same shape but
different emissive colors hit at the same distance; `[A, B]` returns the
record of `A`, `[B, A]` the record of `B`, so the result is not invariant
under reordering. -/
theorem C2_counterexample :
    Scene.intersect ⟨[pairEntityA, pairEntityB]⟩ (0, 0) (1, 0) ≠
      Scene.intersect ⟨[pairEntityB, pairEntityA]⟩ (0, 0) (1, 0) := by
  unfold Scene.intersect
  simp only [List.foldl_cons, List.foldl_nil]
  simp only [sceneFoldStep, pairEntityA_hit, pairEntityB_hit]
  rw [if_neg (lt_irrefl _), if_neg (lt_irrefl _)]
  simp [EntityIntersection.mk.injEq, Color.mk.injEq]

/-- Claim C3 (amended): with `dot = d·n` and
`k = 1 − eta²(1 − dot²)` (note `dot² = cosθᵢ²`), `refract` returns `none`
exactly when `k < 0`, and otherwise returns
`eta·d − (eta·(d·n) + √k)·n` — equivalently `eta·d + (eta·cosθᵢ − √k)·n`
with `cosθᵢ = −(d·n)` — not the spec's `eta·d − (eta·cosθᵢ + √k)·n`. -/
theorem C3_refract_formula (ix iy nx ny eta : ℝ) :
    (refract ix iy nx ny eta = none ↔
      1 - eta * eta * (1 - (ix * nx + iy * ny) * (ix * nx + iy * ny)) < 0) ∧
    (¬ 1 - eta * eta * (1 - (ix * nx + iy * ny) * (ix * nx + iy * ny)) < 0 →
      refract ix iy nx ny eta =
        some (eta * ix -
                (eta * (ix * nx + iy * ny) +
                  Real.sqrt (1 - eta * eta *
                    (1 - (ix * nx + iy * ny) * (ix * nx + iy * ny)))) * nx,
              eta * iy -
                (eta * (ix * nx + iy * ny) +
                  Real.sqrt (1 - eta * eta *
                    (1 - (ix * nx + iy * ny) * (ix * nx + iy * ny)))) * ny)) :=
  ⟨refract_none_iff ix iy nx ny eta, refract_some ix iy nx ny eta⟩

/-- Counterexample to C3 as stated: at normal incidence `d = (0,1)`,
`n = (0,-1)`, `eta = 1` (where `k = 1 ≥ 0`), the source returns the
transmitted direction `(0, 1)` while the spec's formula gives `(0, 3)`. -/
theorem C3_counterexample :
    refract 0 1 0 (-1) 1 = some (0, 1) ∧
    refractSpec 0 1 0 (-1) 1 = some (0, 3) ∧
    refract 0 1 0 (-1) 1 ≠ refractSpec 0 1 0 (-1) 1 := by
  have h1 : refract 0 1 0 (-1) 1 = some (0, 1) := by
    norm_num [refract, Real.sqrt_one]
  have h2 : refractSpec 0 1 0 (-1) 1 = some (0, 3) := by
    norm_num [refractSpec, Real.sqrt_one]
  refine ⟨h1, h2, ?_⟩
  rw [h1, h2]
  simp

/-- Claim C6 (amended): for every non-negative channel value `c`, the byte
written is the truncation `⌊c·255⌋` clamped to 255 (Rust's `as u32` cast
truncates toward zero; it does not round to nearest), and it always lies
in `[0, 255]`. -/
theorem C6_pixel_truncates (c : ℝ) (hc : 0 ≤ c) :
    pixel_channel c = min (Nat.floor (c * 255)) 255 ∧ pixel_channel c ≤ 255 := by
  constructor
  · rw [pixel_channel, f64_as_u32]
    split_ifs with h
    · have hz : c * 255 = 0 := le_antisymm h (by positivity)
      simp [hz]
    · have hmm : min (4294967295 : ℕ) 255 = 255 := by norm_num
      rw [min_assoc, hmm]
  · exact min_le_right _ _

/-- Witness for C6 at `c = 1/2`: the byte is `⌊127.5⌋ = 127`. -/
theorem C6_witness :
    pixel_channel (1 / 2) = min (Nat.floor ((1 / 2 : ℝ) * 255)) 255 ∧
      pixel_channel (1 / 2) ≤ 255 :=
  C6_pixel_truncates (1 / 2) (by norm_num)

/-- Counterexample to C6 as stated: at `c = 0.399` the code writes the
truncated value `⌊101.745⌋ = 101`, while round-then-clamp gives `102`. -/
theorem C6_counterexample :
    pixel_channel (399 / 1000) = 101 ∧ pixel_channel_spec (399 / 1000) = 102 ∧
      pixel_channel (399 / 1000) ≠ pixel_channel_spec (399 / 1000) := by
  have h1 : pixel_channel (399 / 1000) = 101 := by
    rw [pixel_channel, f64_as_u32, if_neg (by norm_num)]
    rw [show Nat.floor ((399 / 1000 : ℝ) * 255) = 101 from ?_]
    · norm_num
    · rw [Nat.floor_eq_iff (by norm_num)]
      norm_num
  have h2 : pixel_channel_spec (399 / 1000) = 102 := by
    have hr : round ((399 / 1000 : ℝ) * 255) = (102 : ℤ) := by
      rw [round_eq, Int.floor_eq_iff]
      norm_num
    rw [pixel_channel_spec, hr]
    rfl
  exact ⟨h1, h2, by rw [h1, h2]; norm_num⟩

/-- Claim C8: constructing a convex polygon with fewer than 2 vertices fails
fatally at construction time (the source's `panic!` in `Polygon::new`,
embedded as `none`), and construction with 2 or more vertices succeeds,
yielding the polygon shape.  The per-ray operations (`intersect`,
`is_inside`) are total functions on every constructed shape and so never
report this error. -/
theorem C8_polygon_constructor (p : List (ℝ × ℝ)) :
    (Polygon.new p = none ↔ p.length < 2) ∧
    (2 ≤ p.length → Polygon.new p = some (Shape.polygon p)) := by
  constructor
  · rw [Polygon.new]
    split_ifs with h
    · constructor
      · intro hc
        cases hc
      · intro hc
        omega
    · constructor
      · intro _
        omega
      · intro _
        rfl
  · intro h
    rw [Polygon.new, if_pos (by omega)]

/-- Claim C10: a polygon built from exactly two vertices — which
`Polygon::new` accepts — contains no point: its two oriented edges `a→b`
and `b→a` are opposite, so no point is strictly on the interior side of
both, and `is_inside` is `false` everywhere. -/
theorem C10_two_vertex_polygon_empty (a b p : ℝ × ℝ) :
    Polygon.new [a, b] = some (Shape.polygon [a, b]) ∧
    Shape.is_inside (Shape.polygon [a, b]) p = false := by
  constructor
  · rw [Polygon.new, if_pos (by simp)]
  · rw [Shape.is_inside]
    have hedges : polyEdges [a, b] = [(a, b), (b, a)] := rfl
    rw [hedges]
    simp only [List.all_cons, List.all_nil, Bool.and_true]
    rcases lt_or_le ((b.1 - a.1) * (p.2 - a.2) - (p.1 - a.1) * (b.2 - a.2)) 0 with h1 | h1
    · have hsum : (a.1 - b.1) * (p.2 - b.2) - (p.1 - b.1) * (a.2 - b.2) =
          -((b.1 - a.1) * (p.2 - a.2) - (p.1 - a.1) * (b.2 - a.2)) := by
        ring
      have h2 : ¬ ((a.1 - b.1) * (p.2 - b.2) - (p.1 - b.1) * (a.2 - b.2) < 0) := by
        rw [hsum]
        linarith
      simp [h2]
    · simp [not_lt.mpr h1]

/-- Claim C7: resolution of the CSG node `Intersect(A,B)` for every ray:
when both children hit and both cross-containment tests hold, a closest of
the two hits is returned; when both hit but only one hit point is inside
the other child, that contained hit is returned; when exactly one child
hits, its hit is returned exactly when it lies inside the other child; in
all remaining cases (including neither child hitting) no intersection is
reported. -/
theorem C7_intersect_csg (A B : Shape) (p d : ℝ × ℝ) :
    (∀ i1 i2, Shape.intersect A p d = some i1 → Shape.intersect B p d = some i2 →
      ((A.is_inside i2.point = true ∧ B.is_inside i1.point = true →
          ∃ j, Shape.intersect (Shape.inter A B) p d = some j ∧
            (j = i1 ∨ j = i2) ∧
            distance p j.point ≤ distance p i1.point ∧
            distance p j.point ≤ distance p i2.point) ∧
        (A.is_inside i2.point = true ∧ ¬ B.is_inside i1.point = true →
          Shape.intersect (Shape.inter A B) p d = some i2) ∧
        (¬ A.is_inside i2.point = true ∧ B.is_inside i1.point = true →
          Shape.intersect (Shape.inter A B) p d = some i1) ∧
        (¬ A.is_inside i2.point = true ∧ ¬ B.is_inside i1.point = true →
          Shape.intersect (Shape.inter A B) p d = none))) ∧
    (∀ i2, Shape.intersect A p d = none → Shape.intersect B p d = some i2 →
      (A.is_inside i2.point = true →
        Shape.intersect (Shape.inter A B) p d = some i2) ∧
      (¬ A.is_inside i2.point = true →
        Shape.intersect (Shape.inter A B) p d = none)) ∧
    (∀ i1, Shape.intersect A p d = some i1 → Shape.intersect B p d = none →
      (B.is_inside i1.point = true →
        Shape.intersect (Shape.inter A B) p d = some i1) ∧
      (¬ B.is_inside i1.point = true →
        Shape.intersect (Shape.inter A B) p d = none)) ∧
    (Shape.intersect A p d = none → Shape.intersect B p d = none →
      Shape.intersect (Shape.inter A B) p d = none) := by
  refine ⟨?_, ?_, ?_, ?_⟩
  · intro i1 i2 h1 h2
    refine ⟨?_, ?_, ?_, ?_⟩
    · rintro ⟨ha, hb⟩
      rcases lt_or_le (distance p i1.point) (distance p i2.point) with hlt | hle
      · refine ⟨i1, ?_, Or.inl rfl, le_refl _, le_of_lt hlt⟩
        simp only [Shape.intersect, h1, h2, ha, hb, Bool.and_self, if_true, if_pos hlt]
      · refine ⟨i2, ?_, Or.inr rfl, hle, le_refl _⟩
        simp only [Shape.intersect, h1, h2, ha, hb, Bool.and_self, if_true,
          if_neg (not_lt.mpr hle)]
    · rintro ⟨ha, hb⟩
      rw [Bool.not_eq_true] at hb
      simp only [Shape.intersect, h1, h2, ha, hb, Bool.true_and, Bool.false_eq_true,
        if_false, if_true]
    · rintro ⟨ha, hb⟩
      rw [Bool.not_eq_true] at ha
      simp only [Shape.intersect, h1, h2, ha, hb, Bool.false_and, Bool.false_eq_true,
        if_false, if_true]
    · rintro ⟨ha, hb⟩
      rw [Bool.not_eq_true] at ha hb
      simp only [Shape.intersect, h1, h2, ha, hb, Bool.false_and, Bool.false_eq_true,
        if_false]
  · intro i2 h1 h2
    constructor
    · intro ha
      simp only [Shape.intersect, h1, h2, ha, if_true]
    · intro ha
      rw [Bool.not_eq_true] at ha
      simp only [Shape.intersect, h1, h2, ha, Bool.false_eq_true, if_false]
  · intro i1 h1 h2
    constructor
    · intro hb
      simp only [Shape.intersect, h1, h2, hb, if_true]
    · intro hb
      rw [Bool.not_eq_true] at hb
      simp only [Shape.intersect, h1, h2, hb, Bool.false_eq_true, if_false]
  · intro h1 h2
    simp only [Shape.intersect, h1, h2]

/-- Claim C9: `trace` is a total function (it is defined by well-founded
recursion on `MAX_DEPTH - depth`, each recursive call passing `depth + 1`
and being guarded by `depth < MAX_DEPTH`), and a call at
`depth ≥ MAX_DEPTH` performs no recursion: it returns black on a miss and
otherwise just the hit's emissive color, attenuated by Beer-Lambert when
the hit was reached from inside — never an error. -/
theorem C9_depth_cutoff (scene : Scene) (ox oy dx dy : ℝ) (depth : ℕ)
    (h : MAX_DEPTH ≤ depth) :
    trace scene ox oy dx dy depth =
      match Scene.intersect scene (ox, oy) (dx, dy) with
      | none => Color.black
      | some r =>
        if traceSign dx dy r < 0 then
          r.emissive * beer_lambert r.absorption (distance (ox, oy) r.point)
        else r.emissive := by
  rcases hs : Scene.intersect scene (ox, oy) (dx, dy) with _ | r
  · rw [trace_no_hit scene ox oy dx dy depth hs]
  · rw [trace_hit scene ox oy dx dy depth r hs,
      tracePre_cutoff scene dx dy depth r (fun hc => (not_lt.mpr h) hc.1)]

/-- Witness for C9: on the empty scene at `depth = MAX_DEPTH`, the tracer
returns black without recursing. -/
theorem C9_witness : trace ⟨[]⟩ 0 0 1 0 MAX_DEPTH = Color.black := by
  rw [C9_depth_cutoff ⟨[]⟩ 0 0 1 0 MAX_DEPTH (le_refl _)]
  rfl

/-- `Scene.intersect` of the one-entity scene `[pairEntityA]`. -/
theorem sceneA_hit : Scene.intersect ⟨[pairEntityA]⟩ (0, 0) (1, 0) =
    some ⟨(1, 0), (-1, 0), ⟨1, 0, 0⟩, 0, 0, Color.black⟩ := by
  unfold Scene.intersect
  simp only [List.foldl_cons, List.foldl_nil, sceneFoldStep, pairEntityA_hit]

/-- Claim C5: `beer_lambert` is `(1,1,1)` at zero absorption or zero
distance, each channel lies in `(0, 1]` for non-negative absorption and
distance, and `trace` multiplies the *entire* accumulated color
(`tracePre`, which includes the emissive term and all recursive
contributions) by the Beer-Lambert transmittance over the distance from
the ray origin to the hit point exactly when `sign < 0`, applying no
attenuation when `sign ≥ 0`. -/
theorem C5_beer_lambert_attenuation (s : Scene) (ox oy dx dy dist : ℝ)
    (depth : ℕ) (a : Color) (r : EntityIntersection)
    (ha : 0 ≤ a.r ∧ 0 ≤ a.g ∧ 0 ≤ a.b) (hdist : 0 ≤ dist)
    (hr : Scene.intersect s (ox, oy) (dx, dy) = some r) :
    beer_lambert a 0 = ⟨1, 1, 1⟩ ∧
    beer_lambert Color.black dist = ⟨1, 1, 1⟩ ∧
    (0 < (beer_lambert a dist).r ∧ (beer_lambert a dist).r ≤ 1 ∧
     0 < (beer_lambert a dist).g ∧ (beer_lambert a dist).g ≤ 1 ∧
     0 < (beer_lambert a dist).b ∧ (beer_lambert a dist).b ≤ 1) ∧
    trace s ox oy dx dy depth =
      (if traceSign dx dy r < 0 then
        tracePre s dx dy depth r *
          beer_lambert r.absorption (distance (ox, oy) r.point)
      else tracePre s dx dy depth r) := by
  refine ⟨?_, ?_, ?_, trace_hit s ox oy dx dy depth r hr⟩
  · ext <;> simp [beer_lambert]
  · ext <;> simp [beer_lambert, Color.black]
  · have key : ∀ c : ℝ, 0 ≤ c → Real.exp (-c * dist) ≤ 1 := by
      intro c hc
      rw [show (1 : ℝ) = Real.exp 0 from Real.exp_zero.symm]
      apply Real.exp_le_exp.mpr
      nlinarith [mul_nonneg hc hdist]
    exact ⟨Real.exp_pos _, key a.r ha.1, Real.exp_pos _, key a.g ha.2.1,
      Real.exp_pos _, key a.b ha.2.2⟩

/-- Witness for C5 at a concrete scene and ray. -/
theorem C5_witness :
    beer_lambert ⟨1, 1, 1⟩ 0 = ⟨1, 1, 1⟩ ∧
    beer_lambert Color.black 1 = ⟨1, 1, 1⟩ ∧
    (0 < (beer_lambert ⟨1, 1, 1⟩ 1).r ∧ (beer_lambert ⟨1, 1, 1⟩ 1).r ≤ 1 ∧
     0 < (beer_lambert ⟨1, 1, 1⟩ 1).g ∧ (beer_lambert ⟨1, 1, 1⟩ 1).g ≤ 1 ∧
     0 < (beer_lambert ⟨1, 1, 1⟩ 1).b ∧ (beer_lambert ⟨1, 1, 1⟩ 1).b ≤ 1) ∧
    trace ⟨[pairEntityA]⟩ 0 0 1 0 0 =
      (if traceSign 1 0 ⟨(1, 0), (-1, 0), ⟨1, 0, 0⟩, 0, 0, Color.black⟩ < 0 then
        tracePre ⟨[pairEntityA]⟩ 1 0 0
            ⟨(1, 0), (-1, 0), ⟨1, 0, 0⟩, 0, 0, Color.black⟩ *
          beer_lambert Color.black (distance (0, 0) (1, 0))
      else
        tracePre ⟨[pairEntityA]⟩ 1 0 0
          ⟨(1, 0), (-1, 0), ⟨1, 0, 0⟩, 0, 0, Color.black⟩) :=
  C5_beer_lambert_attenuation ⟨[pairEntityA]⟩ 0 0 1 0 1 0 ⟨1, 1, 1⟩
    ⟨(1, 0), (-1, 0), ⟨1, 0, 0⟩, 0, 0, Color.black⟩
    (by norm_num) (by norm_num) sceneA_hit

theorem dot_sq_le (x1 y1 x2 y2 : ℝ) :
    (x1 * x2 + y1 * y2) * (x1 * x2 + y1 * y2) ≤
      (x1 * x1 + y1 * y1) * (x2 * x2 + y2 * y2) := by
  nlinarith [sq_nonneg (x1 * y2 - x2 * y1)]

theorem traceSign_cases (dx dy : ℝ) (r : EntityIntersection) :
    traceSign dx dy r = 1 ∨ traceSign dx dy r = -1 := by
  rw [traceSign]
  split_ifs
  · exact Or.inl rfl
  · exact Or.inr rfl

theorem orientN_dot_nonpos (dx dy : ℝ) (r : EntityIntersection) :
    dx * (orientN dx dy r).1 + dy * (orientN dx dy r).2 ≤ 0 := by
  rw [orientN, traceSign]
  dsimp only
  split_ifs with h
  · nlinarith
  · push_neg at h
    nlinarith

theorem orientN_unit (dx dy : ℝ) (r : EntityIntersection)
    (hn : r.normal.1 * r.normal.1 + r.normal.2 * r.normal.2 = 1) :
    (orientN dx dy r).1 * (orientN dx dy r).1 +
      (orientN dx dy r).2 * (orientN dx dy r).2 = 1 := by
  rw [orientN]
  dsimp only
  rcases traceSign_cases dx dy r with hs | hs <;> rw [hs] <;> nlinarith

theorem unit_interval_poly (q a : ℝ) (hq0 : 0 ≤ q) (hq1 : q ≤ 1)
    (ha0 : 0 ≤ a) (ha1 : a ≤ 1) :
    0 ≤ q + (1 - q) * (a * a) * (a * a) * a ∧
      q + (1 - q) * (a * a) * (a * a) * a ≤ 1 := by
  have h2 : a * a ≤ 1 := by nlinarith
  have h20 : 0 ≤ a * a := mul_self_nonneg a
  have h4 : a * a * (a * a) ≤ 1 := by nlinarith
  have h40 : 0 ≤ a * a * (a * a) := by positivity
  have h5 : a * a * (a * a) * a ≤ 1 := by nlinarith
  have h50 : 0 ≤ a * a * (a * a) * a := by positivity
  constructor <;> nlinarith

theorem schlick_bounds (cosi cost etai etat : ℝ)
    (hci0 : 0 ≤ cosi) (hci1 : cosi ≤ 1) (hct0 : 0 ≤ cost) (hct1 : cost ≤ 1)
    (hei : 0 ≤ etai) (het : 0 ≤ etat) :
    0 ≤ schlick cosi cost etai etat ∧ schlick cosi cost etai etat ≤ 1 := by
  have hq0 : 0 ≤ ((etai - etat) / (etai + etat)) * ((etai - etat) / (etai + etat)) :=
    mul_self_nonneg _
  have hq1 : ((etai - etat) / (etai + etat)) * ((etai - etat) / (etai + etat)) ≤ 1 := by
    rcases eq_or_lt_of_le (add_nonneg hei het) with hz | hpos
    · rw [← hz]
      simp
    · rw [div_mul_div_comm, div_le_one (by positivity)]
      nlinarith
  have ha0 : 0 ≤ (if etai < etat then 1 - cosi else 1 - cost) := by
    split_ifs <;> linarith
  have ha1 : (if etai < etat then 1 - cosi else 1 - cost) ≤ 1 := by
    split_ifs <;> linarith
  rw [schlick]
  exact unit_interval_poly _ _ hq0 hq1 ha0 ha1

/-- Claim C4: when a hit on a refractive material (`eta > 0`) at
`depth < MAX_DEPTH` refracts successfully, and the ray direction and the
stored normal are unit vectors (as produced by the pixel sampler and the
shape layer), the Schlick reflectance `refl` computed by `trace` satisfies
`0 ≤ refl ≤ 1`, and the pre-attenuation accumulator equals
`emissive + refracted·(1 − refl) + reflected·refl` exactly — each
contribution counted once — with Beer-Lambert applied only afterwards. -/
theorem C4_energy_split (scene : Scene) (ox oy dx dy rx ry : ℝ) (depth : ℕ)
    (r : EntityIntersection)
    (h : Scene.intersect scene (ox, oy) (dx, dy) = some r)
    (hdepth : depth < MAX_DEPTH) (heta : 0 < r.eta)
    (hrefr : refract dx dy (orientN dx dy r).1 (orientN dx dy r).2
        (traceEta dx dy r) = some (rx, ry))
    (hd : dx * dx + dy * dy = 1)
    (hn : r.normal.1 * r.normal.1 + r.normal.2 * r.normal.2 = 1) :
    (0 ≤ traceRefl dx dy rx ry r ∧ traceRefl dx dy rx ry r ≤ 1) ∧
    tracePre scene dx dy depth r =
      r.emissive
        + trace scene r.point.1 r.point.2 rx ry (depth + 1)
            * (1 - traceRefl dx dy rx ry r)
        + trace scene r.point.1 r.point.2
            (reflect dx dy (orientN dx dy r).1 (orientN dx dy r).2).1
            (reflect dx dy (orientN dx dy r).1 (orientN dx dy r).2).2
            (depth + 1) * traceRefl dx dy rx ry r ∧
    trace scene ox oy dx dy depth =
      (if traceSign dx dy r < 0 then
        tracePre scene dx dy depth r *
          beer_lambert r.absorption (distance (ox, oy) r.point)
      else tracePre scene dx dy depth r) := by
  set nx := (orientN dx dy r).1 with hnx
  set ny := (orientN dx dy r).2 with hny
  set eta := traceEta dx dy r with hetad
  have hknn : ¬ (1 - eta * eta * (1 - (dx * nx + dy * ny) * (dx * nx + dy * ny)) < 0) := by
    intro hk
    rw [(refract_none_iff dx dy nx ny eta).mpr hk] at hrefr
    cases hrefr
  have hsome := refract_some dx dy nx ny eta hknn
  rw [hrefr] at hsome
  have hpair := Option.some.inj hsome
  have hrx : rx = eta * dx -
      (eta * (dx * nx + dy * ny) +
        Real.sqrt (1 - eta * eta *
          (1 - (dx * nx + dy * ny) * (dx * nx + dy * ny)))) * nx :=
    congrArg Prod.fst hpair
  have hry : ry = eta * dy -
      (eta * (dx * nx + dy * ny) +
        Real.sqrt (1 - eta * eta *
          (1 - (dx * nx + dy * ny) * (dx * nx + dy * ny)))) * ny :=
    congrArg Prod.snd hpair
  have hdot0 : dx * nx + dy * ny ≤ 0 := orientN_dot_nonpos dx dy r
  have hunit : nx * nx + ny * ny = 1 := orientN_unit dx dy r hn
  have hdot1 : (dx * nx + dy * ny) * (dx * nx + dy * ny) ≤ 1 := by
    have := dot_sq_le dx dy nx ny
    rw [hd, hunit] at this
    linarith
  have hci0 : 0 ≤ -(dx * nx + dy * ny) := neg_nonneg.mpr hdot0
  have hci1 : -(dx * nx + dy * ny) ≤ 1 := by nlinarith
  have hk0 : 0 ≤ 1 - eta * eta * (1 - (dx * nx + dy * ny) * (dx * nx + dy * ny)) :=
    le_of_not_lt hknn
  have hk1 : 1 - eta * eta * (1 - (dx * nx + dy * ny) * (dx * nx + dy * ny)) ≤ 1 := by
    nlinarith [mul_self_nonneg eta]
  have hcost : -(rx * nx + ry * ny) =
      Real.sqrt (1 - eta * eta * (1 - (dx * nx + dy * ny) * (dx * nx + dy * ny))) := by
    rw [hrx, hry]
    linear_combination (eta * (dx * nx + dy * ny) +
      Real.sqrt (1 - eta * eta * (1 - (dx * nx + dy * ny) * (dx * nx + dy * ny)))) * hunit
  have hct0 : 0 ≤ -(rx * nx + ry * ny) := by
    rw [hcost]
    exact Real.sqrt_nonneg _
  have hct1 : -(rx * nx + ry * ny) ≤ 1 := by
    rw [hcost]
    exact Real.sqrt_le_one.mpr hk1
  have hbounds : 0 ≤ traceRefl dx dy rx ry r ∧ traceRefl dx dy rx ry r ≤ 1 := by
    rw [traceRefl]
    split_ifs
    · exact schlick_bounds _ _ _ _ hci0 hci1 hct0 hct1 (le_of_lt heta) zero_le_one
    · exact schlick_bounds _ _ _ _ hci0 hci1 hct0 hct1 zero_le_one (le_of_lt heta)
  refine ⟨hbounds, ?_, trace_hit scene ox oy dx dy depth r h⟩
  rw [tracePre_refr scene dx dy rx ry depth r hdepth heta hrefr]
  rcases lt_or_eq_of_le hbounds.1 with hpos | hzero
  · rw [if_pos hpos]
  · rw [if_neg (by rw [← hzero]; exact lt_irrefl 0), ← hzero, Color.smul_zero,
      Color.add_black]

theorem S4_hit : Scene.intersect S4scene (0, 1) (0, -1) = some r4 := by
  unfold S4scene Scene.intersect
  simp only [List.foldl_cons, List.foldl_nil, sceneFoldStep]
  rw [show Entity.intersect refrEntity (0, 1) (0, -1) = some r4 from ?_]
  rw [refrEntity, Entity.intersect, r4]
  norm_num [Shape.intersect, EPSILON]

theorem S4_refract : refract 0 (-1) (orientN 0 (-1) r4).1 (orientN 0 (-1) r4).2
    (traceEta 0 (-1) r4) = some (0, -1) := by
  norm_num [r4, orientN, traceSign, traceEta, refract, Real.sqrt_one]

/-- Witness for C4 at a concrete refractive hit. -/
theorem C4_witness :
    (0 ≤ traceRefl 0 (-1) 0 (-1) r4 ∧ traceRefl 0 (-1) 0 (-1) r4 ≤ 1) ∧
    tracePre S4scene 0 (-1) 0 r4 =
      r4.emissive
        + trace S4scene r4.point.1 r4.point.2 0 (-1) (0 + 1)
            * (1 - traceRefl 0 (-1) 0 (-1) r4)
        + trace S4scene r4.point.1 r4.point.2
            (reflect 0 (-1) (orientN 0 (-1) r4).1 (orientN 0 (-1) r4).2).1
            (reflect 0 (-1) (orientN 0 (-1) r4).1 (orientN 0 (-1) r4).2).2
            (0 + 1) * traceRefl 0 (-1) 0 (-1) r4 ∧
    trace S4scene 0 1 0 (-1) 0 =
      (if traceSign 0 (-1) r4 < 0 then
        tracePre S4scene 0 (-1) 0 r4 *
          beer_lambert r4.absorption (distance (0, 1) r4.point)
      else tracePre S4scene 0 (-1) 0 r4) :=
  C4_energy_split S4scene 0 1 0 (-1) 0 (-1) 0 r4 S4_hit (by norm_num [MAX_DEPTH])
    (by norm_num [r4]) S4_refract (by norm_num) (by norm_num [r4])

theorem reflEntity_ray1 : Entity.intersect reflEntity (0, 1) (1, -1) = some pr1 := by
  rw [reflEntity, Entity.intersect, pr1]
  norm_num [Shape.intersect, EPSILON]

theorem tangentCircle_ray1 : Entity.intersect tangentCircle (0, 1) (1, -1) = none := by
  rw [tangentCircle, Entity.intersect]
  norm_num [Shape.intersect, Real.mul_self_sqrt]

theorem S1_ray1 : Scene.intersect S1scene (0, 1) (1, -1) = some pr1 := by
  unfold S1scene Scene.intersect
  simp only [List.foldl_cons, List.foldl_nil, sceneFoldStep, reflEntity_ray1,
    tangentCircle_ray1]

theorem reflEntity_ray2 : Entity.intersect reflEntity (1, 0) (1, 1) = none := by
  rw [reflEntity, Entity.intersect]
  norm_num [Shape.intersect, EPSILON]

theorem tangentCircle_ray2 : Entity.intersect tangentCircle (1, 0) (1, 1) = some cr2 := by
  rw [tangentCircle, Entity.intersect, cr2]
  norm_num [Shape.intersect, Real.mul_self_sqrt, EPSILON, Real.sqrt_zero]

theorem S1_ray2 : Scene.intersect S1scene (1, 0) (1, 1) = some cr2 := by
  unfold S1scene Scene.intersect
  simp only [List.foldl_cons, List.foldl_nil, sceneFoldStep, reflEntity_ray2,
    tangentCircle_ray2]

theorem reflEntity_bias (b : ℝ) (hb : 0 < b) :
    Entity.intersect reflEntity (1, b) (1, 1) = none := by
  rw [reflEntity, Entity.intersect]
  have : Shape.intersect (.plane 0 0 0 1) (1, b) (1, 1) = none := by
    rw [Shape.intersect]
    rw [if_neg (by norm_num [EPSILON])]
    rw [if_neg (by norm_num [EPSILON]; linarith)]
  rw [this]
  rfl

theorem tangentCircle_bias (b : ℝ) (hb : 0 < b) :
    Entity.intersect tangentCircle (1, b) (1, 1) = none := by
  rw [tangentCircle, Entity.intersect]
  have : Shape.intersect (.circle 4 1 (Real.sqrt 2)) (1, b) (1, 1) = none := by
    rw [Shape.intersect]
    rw [if_pos]
    simp only [Real.mul_self_sqrt (by norm_num : (0 : ℝ) ≤ 2)]
    nlinarith [sq_nonneg b]
  rw [this]
  rfl

theorem S1_bias (b : ℝ) (hb : 0 < b) :
    Scene.intersect S1scene (1, b) (1, 1) = none := by
  unfold S1scene Scene.intersect
  simp only [List.foldl_cons, List.foldl_nil, sceneFoldStep, reflEntity_bias b hb,
    tangentCircle_bias b hb]

theorem trace_S1_ray2 : trace S1scene 1 0 1 1 1 = ⟨5, 5, 5⟩ := by
  rw [trace_hit S1scene 1 0 1 1 1 cr2 S1_ray2]
  have hsign : traceSign 1 1 cr2 = -1 := by
    rw [traceSign, cr2]
    rw [if_neg]
    dsimp only
    rw [show -1 / Real.sqrt 2 * 1 + 1 / Real.sqrt 2 * 1 = 0 by ring]
    exact lt_irrefl 0
  rw [hsign, if_pos (by norm_num)]
  rw [tracePre_cutoff S1scene 1 1 1 cr2 (by rw [cr2]; norm_num)]
  rw [cr2]
  ext <;> simp [beer_lambert, Color.black, Color.mul_def]

theorem trace_S1_ray1 : trace S1scene 0 1 1 (-1) 0 = ⟨5 / 2, 5 / 2, 5 / 2⟩ := by
  rw [trace_hit S1scene 0 1 1 (-1) 0 pr1 S1_ray1]
  have hsign : traceSign 1 (-1) pr1 = 1 := by
    rw [traceSign, pr1]
    rw [if_pos (by norm_num)]
  rw [hsign, if_neg (by norm_num)]
  rw [tracePre_refl S1scene 1 (-1) 0 pr1 (by norm_num [MAX_DEPTH])
    (by rw [pr1]; norm_num) (by rw [pr1]; norm_num)]
  have horient : orientN 1 (-1) pr1 = (0, 1) := by
    rw [orientN, hsign, pr1]
    norm_num
  rw [horient]
  have hrefl : reflect 1 (-1) (0, 1).1 (0, 1).2 = (1, 1) := by
    rw [reflect]
    norm_num
  rw [hrefl]
  show pr1.emissive + trace S1scene pr1.point.1 pr1.point.2 1 1 (0 + 1) *
      pr1.reflectivity = _
  rw [pr1]
  dsimp only
  rw [show (0 + 1 : ℕ) = 1 from rfl, trace_S1_ray2]
  ext <;> simp [Color.add_def, Color.smul_def, Color.black] <;> norm_num

/-- Claim C1 (amended): no bias offset is applied anywhere: each recursive
ray of `trace` — here the reflected branch of a non-refractive reflective
hit — starts exactly at the hit point `r.point`; immediate
self-re-intersection is prevented by the `t > EPSILON` threshold inside the
shape intersection routines, not by offsetting the recursive ray's
origin along the oriented normal. -/
theorem C1_no_bias (scene : Scene) (ox oy dx dy : ℝ) (depth : ℕ)
    (r : EntityIntersection)
    (h : Scene.intersect scene (ox, oy) (dx, dy) = some r)
    (hdepth : depth < MAX_DEPTH) (heta : ¬ 0 < r.eta)
    (hrefl : 0 < r.reflectivity) :
    trace scene ox oy dx dy depth =
      (if traceSign dx dy r < 0 then
        (r.emissive + trace scene r.point.1 r.point.2
            (reflect dx dy (orientN dx dy r).1 (orientN dx dy r).2).1
            (reflect dx dy (orientN dx dy r).1 (orientN dx dy r).2).2
            (depth + 1) * r.reflectivity) *
          beer_lambert r.absorption (distance (ox, oy) r.point)
      else
        r.emissive + trace scene r.point.1 r.point.2
          (reflect dx dy (orientN dx dy r).1 (orientN dx dy r).2).1
          (reflect dx dy (orientN dx dy r).1 (orientN dx dy r).2).2
          (depth + 1) * r.reflectivity) := by
  rw [trace_hit scene ox oy dx dy depth r h,
    tracePre_refl scene dx dy depth r hdepth heta hrefl]

/-- Witness for C1 on the one-entity reflective scene. -/
theorem C1_witness :
    trace ⟨[reflEntity]⟩ 0 1 1 (-1) 0 =
      (if traceSign 1 (-1) pr1 < 0 then
        (pr1.emissive + trace ⟨[reflEntity]⟩ pr1.point.1 pr1.point.2
            (reflect 1 (-1) (orientN 1 (-1) pr1).1 (orientN 1 (-1) pr1).2).1
            (reflect 1 (-1) (orientN 1 (-1) pr1).1 (orientN 1 (-1) pr1).2).2
            (0 + 1) * pr1.reflectivity) *
          beer_lambert pr1.absorption (distance (0, 1) pr1.point)
      else
        pr1.emissive + trace ⟨[reflEntity]⟩ pr1.point.1 pr1.point.2
          (reflect 1 (-1) (orientN 1 (-1) pr1).1 (orientN 1 (-1) pr1).2).1
          (reflect 1 (-1) (orientN 1 (-1) pr1).1 (orientN 1 (-1) pr1).2).2
          (0 + 1) * pr1.reflectivity) :=
  C1_no_bias ⟨[reflEntity]⟩ 0 1 1 (-1) 0 pr1
    (by
      unfold Scene.intersect
      simp only [List.foldl_cons, List.foldl_nil, sceneFoldStep, reflEntity_ray1])
    (by norm_num [MAX_DEPTH]) (by rw [pr1]; norm_num) (by rw [pr1]; norm_num)

/-- Counterexample to C1 as stated.  In `S1scene` the ray `(0,1) → (1,-1)`
hits the reflective plane at `(1,0)` with oriented normal `(0,1)` and
reflected direction `(1,1)`; the traced color `(5/2,5/2,5/2)` equals
`emissive(black) + trace-from-(1,0) · 1/2` — the recursion starting
*exactly* at the hit point and seeing the tangent emissive circle.  Had
the recursive ray been offset outward along the oriented normal by *any*
positive bias constant, its origin `(1, bias)` would miss everything and
contribute black, making the result black — so no bias constant exists,
and the recursion does start exactly at the hit point. -/
theorem C1_counterexample :
    Scene.intersect S1scene (0, 1) (1, -1) = some pr1 ∧
    pr1.point = (1, 0) ∧
    trace S1scene 0 1 1 (-1) 0 = ⟨5 / 2, 5 / 2, 5 / 2⟩ ∧
    trace S1scene 1 0 1 1 1 = ⟨5, 5, 5⟩ ∧
    (∀ bias : ℝ, 0 < bias → trace S1scene 1 bias 1 1 1 = Color.black) ∧
    (∀ bias : ℝ, 0 < bias →
      Color.black + trace S1scene 1 bias 1 1 1 * (1 / 2 : ℝ) = Color.black) ∧
    (⟨5 / 2, 5 / 2, 5 / 2⟩ : Color) ≠ Color.black := by
  refine ⟨S1_ray1, rfl, trace_S1_ray1, trace_S1_ray2, ?_, ?_, ?_⟩
  · intro b hb
    exact trace_no_hit S1scene 1 b 1 1 1 (S1_bias b hb)
  · intro b hb
    rw [trace_no_hit S1scene 1 b 1 1 1 (S1_bias b hb)]
    ext <;> simp [Color.add_def, Color.smul_def, Color.black]
  · intro hc
    have := congrArg Color.r hc
    simp [Color.black] at this

